import Mathlib

/-!
Verification of the google-form-auto-filler core against its specification.

The development shallowly embeds the TypeScript sources:
- `src/lib/randomization.ts` (RandomizationEngine): value generation and
  config validation;
- the run engine (RunEngine.startRun / stopRun): the submission loop;
- the mapping engine (MappingEngine.extractOptions): option extraction;
- the inline content script (FormAutomator): probability validation and the
  submit handler.

JavaScript numbers are modelled as rationals (no NaN: a NaN produced by
parseFloat is modelled as `Option.none`), Math.random() draws as rationals
in [0,1), and JS nullish values as `Option`.
-/

namespace GFormFiller

/-! ## RandomizationEngine (src/lib/randomization.ts) -/

/-- `generateRange min max r`: `Math.floor(r * (max - min + 1)) + min`,
the body of `RandomizationEngine.generateRange` with the `Math.random()`
draw `r` made explicit.  Bounds are integers (the function is documented
as generating a random integer in `[min, max]`). -/
def generateRange (min max : Int) (r : ℚ) : Int :=
  ⌊r * ((max : ℚ) - (min : ℚ) + 1)⌋ + min

/-- `generatePick options r`: `RandomizationEngine.generatePick`.
Returns `null` on an empty list, else `options[Math.floor(r * length)]`.
A negative index (possible only for `r < 0`) yields `undefined` in JS,
modelled as `none`; an index past the end likewise. -/
def generatePick {α : Type} (options : List α) (r : ℚ) : Option α :=
  if options.length = 0 then none
  else
    let idx := ⌊r * (options.length : ℚ)⌋
    if 0 ≤ idx then options.get? idx.toNat else none

/-- Effective per-option weight inside `generateWeighted`:
`weights[optionKey] || 1`.  A present entry of `0` is falsy in JS, so it
falls back to the default `1`, exactly like a missing entry. -/
def effectiveWeight (weights : List (String × ℚ)) (key : String) : ℚ :=
  match (weights.find? (fun kv => kv.1 = key)).map (fun kv => kv.2) with
  | some w => if w = 0 then 1 else w
  | none => 1

/-- The `for (const option of options)` walk of `generateWeighted`:
subtract each option's effective weight from the drawn value until it goes
non-positive (`random -= weight; if (random <= 0) return option`).
`none` means the loop fell through. -/
def weightedWalk (weights : List (String × ℚ)) : List String → ℚ → Option String
  | [], _ => none
  | o :: rest, rand =>
    let w := effectiveWeight weights o
    if rand - w ≤ 0 then some o else weightedWalk weights rest (rand - w)

/-- `RandomizationEngine.generateWeighted`: total weight is the sum of all
map entries; a zero total degrades to `generatePick`; otherwise the
cumulative walk runs on `r * totalWeight`, with `options[options.length - 1]`
as the fall-through result. -/
def generateWeighted (options : List String) (weights : List (String × ℚ))
    (r : ℚ) : Option String :=
  let totalWeight := (weights.map (fun kv => kv.2)).sum
  if totalWeight = 0 then generatePick options r
  else
    match weightedWalk weights options (r * totalWeight) with
    | some o => some o
    | none => options.get? (options.length - 1)

/-- The `type` tag of a RandomizationConfig. -/
inductive RandType where
  | fixed
  | pick
  | range
  | regex
  | distribution
  | custom_js
deriving DecidableEq, Repr

/-- The fields of `RandomizationConfig` read by `validateConfig`.
`none` models an absent (or, for `min`/`max`, non-number) field. -/
structure RandomizationConfig where
  type : Option RandType
  options : Option (List String)
  min : Option ℚ
  max : Option ℚ
  pattern : Option String
  expression : Option String
deriving DecidableEq, Repr

/-- JS truthiness test for an optional string: `undefined` and `""` are
falsy. -/
def strFalsy : Option String → Bool
  | none => true
  | some s => s.isEmpty

/-- JS `x || d` for an optional number: `undefined` and `0` are falsy and
fall back to the default. -/
def numOrDefault : Option ℚ → ℚ → ℚ
  | none, d => d
  | some v, d => if v = 0 then d else v

/-- The `{valid, errors}` result of `validateConfig`. -/
structure ValidationResult where
  valid : Bool
  errors : List String
deriving DecidableEq, Repr

/-- `RandomizationEngine.validateConfig`, branch by branch:
missing type is one error; then the switch on the type adds the per-variant
errors.  Note the `range` branch compares `(config.min || 0)` with
`(config.max || 100)`, i.e. falsy (zero or absent) bounds are replaced by
the same defaults `generate` itself uses. -/
def validateConfig (config : RandomizationConfig) : ValidationResult :=
  let errors0 : List String :=
    if config.type = none then ["Randomization type is required"] else []
  let errors :=
    errors0 ++
      match config.type with
      | some RandType.pick =>
        if config.options = none ∨ config.options = some [] then
          ["Pick requires at least one option"]
        else []
      | some RandType.range =>
        (if config.min = none ∨ config.max = none then
          ["Range requires min and max numbers"]
        else []) ++
        (if numOrDefault config.min 0 > numOrDefault config.max 100 then
          ["Min must be less than or equal to max"]
        else [])
      | some RandType.regex =>
        if strFalsy config.pattern then ["Regex requires a pattern"] else []
      | some RandType.distribution =>
        if config.options = none ∨ config.options = some [] then
          ["Distribution requires options"]
        else []
      | some RandType.custom_js =>
        if strFalsy config.expression then
          ["Custom JS requires an expression"]
        else []
      | _ => []
  { valid := errors.isEmpty, errors := errors }

/-- Convenience constructor: a range config with the given bounds. -/
def rangeConfig (mn mx : Option ℚ) : RandomizationConfig :=
  { type := some RandType.range, options := none, min := mn, max := mx,
    pattern := none, expression := none }

/-- Convenience constructor: a pick config with the given options. -/
def pickConfig (opts : Option (List String)) : RandomizationConfig :=
  { type := some RandType.pick, options := opts, min := none, max := none,
    pattern := none, expression := none }

/-! ### generateFromRegex (pattern synthesis) -/

/-- The `\w` alphabet of `generateFromRegex`. -/
def wordChars : List Char :=
  "abcdefghijklmnopqrstuvwxyzABCDEFGHIJKLMNOPQRSTUVWXYZ0123456789_".data

/-- JS indexing `l[i]` as used on character strings: a valid index yields
that one character, an out-of-range or negative index yields `undefined`,
which `result += ...` coerces to the text "undefined". -/
def jsIndex (l : List Char) (i : Int) : List Char :=
  if 0 ≤ i then
    match l.get? i.toNat with
    | some c => [c]
    | none => "undefined".data
  else "undefined".data

/-- The `for (code = start; code <= end; code++)` expansion of a bracket
range such as `a-z` inside `expandCharSet`; an inverted range runs zero
times. -/
def rangeChars (a b : Char) : List Char :=
  if a.toNat ≤ b.toNat then
    (List.range (b.toNat - a.toNat + 1)).map (fun k => Char.ofNat (a.toNat + k))
  else []

/-- `RandomizationEngine.expandCharSet`: a `x-y` triple expands to the
character range, any other character passes through. -/
def expandCharSet : List Char → List Char
  | a :: '-' :: b :: rest => rangeChars a b ++ expandCharSet rest
  | c :: rest => c :: expandCharSet rest
  | [] => []

/-- Leading-digits part of JS `parseInt(s, 10)`: at least one digit is
required, trailing non-digits are ignored. -/
def parseDigits (s : List Char) : Option Nat :=
  let ds := s.takeWhile Char.isDigit
  if ds.isEmpty then none
  else some (ds.foldl (fun acc c => acc * 10 + (c.toNat - 48)) 0)

/-- JS `parseInt(s, 10)`: skip leading spaces, optional sign, leading
digits; `none` models the NaN result. -/
def jsParseInt (s : List Char) : Option Int :=
  match s.dropWhile (fun c => c = ' ') with
  | '-' :: rest => (parseDigits rest).map (fun n => -(n : Int))
  | '+' :: rest => (parseDigits rest).map (fun n => (n : Int))
  | rest => (parseDigits rest).map (fun n => (n : Int))

/-- Repetition count of a `{...}` quantifier in `generateFromRegex`:
`range.split(",")`, destructure into `minStr`/`maxStr`, `parseInt` both
(`maxStr || minStr` makes an absent or empty max fall back to the min),
then `generateRange(min, max)` with the draw `r`.  When either bound
parses to NaN the JS count is NaN and the emission loop runs zero times;
`Math.random()` is consumed either way. -/
def quantRange (range : List Char) (r : ℚ) : Int :=
  let parts := range.splitOn ','
  let minStr := parts.headD []
  let maxStr :=
    match parts.get? 1 with
    | some l => if l.isEmpty then minStr else l
    | none => minStr
  match jsParseInt minStr, jsParseInt maxStr with
  | some mn, some mx => generateRange mn mx r
  | _, _ => 0

/-- `RandomizationEngine.generateFromRegex` over the pattern's character
list, with the `Math.random()` draws made explicit as an oracle `rand`
indexed by consumption order (`k` is the next index).  Each equation is
one branch of the source's `while` loop; `*` and `+` and `{n,m}` emit
repetitions of the literal placeholder character `a` and never inspect the
token before them.  A `\` at the very end of the pattern reads
`pattern[i+1]` as `undefined`, which string-appends as "undefined". -/
def genFromPat (rand : Nat → ℚ) : List Char → Nat → List Char
  | [], _ => []
  | '\\' :: 'd' :: rest, k =>
    Char.ofNat (48 + (⌊rand k * 10⌋).toNat) :: genFromPat rand rest (k + 1)
  | '\\' :: 'w' :: rest, k =>
    jsIndex wordChars ⌊rand k * (wordChars.length : ℚ)⌋ ++
      genFromPat rand rest (k + 1)
  | ['\\'], _ => "undefined".data
  | '\\' :: c :: rest, k => c :: genFromPat rand rest k
  | '[' :: rest, k =>
    (match rest.findIdx? (fun c => c = ']') with
    | some j =>
      let chars := expandCharSet (rest.take j)
      jsIndex chars ⌊rand k * (chars.length : ℚ)⌋ ++
        genFromPat rand (rest.drop (j + 1)) (k + 1)
    | none => '[' :: genFromPat rand rest k)
  | '*' :: rest, k =>
    List.replicate (⌊rand k * 3⌋).toNat 'a' ++ genFromPat rand rest (k + 1)
  | '+' :: rest, k =>
    List.replicate (1 + (⌊rand k * 2⌋).toNat) 'a' ++ genFromPat rand rest (k + 1)
  | '{' :: rest, k =>
    (match rest.findIdx? (fun c => c = '}') with
    | some j =>
      List.replicate (quantRange (rest.take j) (rand k)).toNat 'a' ++
        genFromPat rand (rest.drop (j + 1)) (k + 1)
    | none => '{' :: genFromPat rand rest k)
  | c :: rest, k => c :: genFromPat rand rest k
termination_by p _ => p.length
decreasing_by
  all_goals simp [List.length_drop]
  all_goals omega

/-! ## RunEngine (submission run engine) -/

/-- One entry of `SubmissionProgress.errors`. -/
structure SubmissionError where
  submissionIndex : Nat
  questionId : String
  message : String
deriving DecidableEq, Repr

/-- The progress record mutated by `RunEngine.startRun` (the two purely
timing-derived fields, `lastSubmissionTime` and `estimatedTimeRemaining`,
are not modelled). -/
structure SubmissionProgress where
  totalSubmissions : Nat
  completedSubmissions : Nat
  failedSubmissions : Nat
  isRunning : Bool
  currentSubmissionIndex : Nat
  errors : List SubmissionError
deriving DecidableEq, Repr

/-- The module-level singleton `RunEngine.runningProcess`, holding the
`configId` of the active run when one exists. -/
structure EngineState where
  runningProcess : Option String
deriving DecidableEq, Repr

/-- The `for` loop of `startRun` together with its `try/finally`.
`remaining` iterations are left, the next one has index `i`; `aborted` is
the abort signal's state at the top of the loop.  The environment is
deterministic: `outcome i` is `none` when iteration `i`'s submission
succeeds and `some msg` when it throws `msg`; `abortDuring i` says whether
`stopRun` fires at an await point inside iteration `i` (its submission or
the following sleep).  When another iteration remains, the inter-iteration
`sleep` observes the aborted signal and rejects with "Aborted"; that
rejection, like the `stopOnError` rethrow, escapes the loop (the `finally`
only clears `isRunning` and the singleton).  A normal exit resolves with
the progress record, `isRunning` cleared by the `finally`. -/
def runLoop (stopOnError : Bool) (outcome : Nat → Option String)
    (abortDuring : Nat → Bool) :
    Nat → Nat → Bool → SubmissionProgress → Except String SubmissionProgress
  | 0, _, _, p => Except.ok { p with isRunning := false }
  | remaining + 1, i, aborted, p =>
    if aborted then Except.ok { p with isRunning := false }
    else
      match outcome i with
      | none =>
        let p2 := { p with
          currentSubmissionIndex := i + 1,
          completedSubmissions := p.completedSubmissions + 1 }
        if remaining ≠ 0 ∧ abortDuring i then Except.error "Aborted"
        else runLoop stopOnError outcome abortDuring remaining (i + 1)
          (abortDuring i) p2
      | some msg =>
        let p2 := { p with
          currentSubmissionIndex := i + 1,
          failedSubmissions := p.failedSubmissions + 1,
          errors := p.errors ++ [⟨i + 1, "form", msg⟩] }
        if stopOnError then Except.error msg
        else if remaining ≠ 0 ∧ abortDuring i then Except.error "Aborted"
        else runLoop stopOnError outcome abortDuring remaining (i + 1)
          (abortDuring i) p2

/-- The progress record as initialised at the top of `startRun`. -/
def initialProgress (count : Nat) : SubmissionProgress :=
  { totalSubmissions := count, completedSubmissions := 0,
    failedSubmissions := 0, isRunning := true, currentSubmissionIndex := 0,
    errors := [] }

/-- `RunEngine.startRun`: the concurrency guard (`if (this.runningProcess)
throw`) followed by the run loop; the `finally` clears the singleton on
every path, so the resulting engine state is `none` whenever the guard
passes.  The result pairs what the returned promise does (resolve with
progress, or reject with a thrown message) with the final module state. -/
def startRun (s : EngineState) (count : Nat) (stopOnError : Bool)
    (outcome : Nat → Option String) (abortDuring : Nat → Bool) :
    Except String SubmissionProgress × EngineState :=
  if s.runningProcess.isSome then
    (Except.error "A submission run is already in progress", s)
  else
    (runLoop stopOnError outcome abortDuring count 0 false
      (initialProgress count),
     { runningProcess := none })

/-! ## MappingEngine.extractOptions -/

/-- The question-type vocabulary of `MappingEngine.detectQuestionType`. -/
inductive QuestionType where
  | short_answer
  | paragraph
  | radio
  | checkbox
  | dropdown
  | linear_scale
  | date
  | time
  | file_upload
  | grid_radio
  | grid_checkbox
deriving DecidableEq, Repr

/-- The sub-node texts `extractOptions` reads from a question element, in
document order: `optionRoleTexts` are the `textContent`s of the
descendants with an option role (the dropdown query), `labelLikeTexts`
those of the label-like descendants (the radio/checkbox query).  A `none`
entry models a nullish `textContent`. -/
structure NodeView where
  optionRoleTexts : List (Option String)
  labelLikeTexts : List (Option String)
deriving DecidableEq, Repr

/-- JS `String.prototype.trim`: strip whitespace from both ends
(executable model; Lean's own `String.trim` is not kernel-reducible). -/
def jsTrim (s : String) : String :=
  String.mk
    (((s.data.dropWhile Char.isWhitespace).reverse.dropWhile
      Char.isWhitespace).reverse)

/-- `MappingEngine.extractOptions`: the dropdown branch pushes every
non-empty trimmed text; the radio/checkbox branch additionally skips a
text already present (`!options.includes(text)`); other types yield no
options. -/
def extractOptions (node : NodeView) (type : QuestionType) : List String :=
  match type with
  | QuestionType.dropdown =>
    node.optionRoleTexts.foldl
      (fun acc t =>
        match t with
        | some s =>
          let text := jsTrim s
          if text ≠ "" then acc ++ [text] else acc
        | none => acc)
      []
  | QuestionType.radio | QuestionType.checkbox =>
    node.labelLikeTexts.foldl
      (fun acc t =>
        match t with
        | some s =>
          let text := jsTrim s
          if text ≠ "" ∧ text ∉ acc then acc ++ [text] else acc
        | none => acc)
      []
  | _ => []

/-- The trimmed, non-empty texts of a sub-node list in document order (the
reference stream both `extractOptions` branches draw from). -/
def cleanTexts (l : List (Option String)) : List String :=
  l.filterMap (fun t =>
    t.bind (fun s =>
      let x := jsTrim s
      if x = "" then none else some x))

/-! ## FormAutomator (inline content script): probability validation -/

/-- One probability input of a field, as validation reads it:
`rowIdx` is the `data-row-idx` dataset entry (present only on grid
inputs), `value` is `parseFloat(input.value)` with `none` for NaN
(`Number.isNaN(num) ? 0 : num` later counts it as 0). -/
structure ProbInput where
  rowIdx : Option String
  value : Option ℚ
deriving DecidableEq, Repr

/-- `Number.isNaN(num) ? 0 : num`. -/
def inputNum (v : Option ℚ) : ℚ := v.getD 0

/-- `input.dataset.rowIdx ?? "0"`. -/
def rowKeyOf (inp : ProbInput) : String := inp.rowIdx.getD "0"

/-- Add a value to a keyed running sum, preserving first-insertion order
(the iteration order of a JS `Map`). -/
def addToRow (sums : List (String × ℚ)) (key : String) (v : ℚ) :
    List (String × ℚ) :=
  match sums with
  | [] => [(key, v)]
  | (k, s) :: rest =>
    if k = key then (k, s + v) :: rest else (k, s) :: addToRow rest key v

/-- The `rowSums` map of the grid branch of `validateProbabilities`:
per-row totals of the inputs' numeric values, rows in first-appearance
order. -/
def rowSums (inputs : List ProbInput) : List (String × ℚ) :=
  inputs.foldl (fun acc inp => addToRow acc (rowKeyOf inp) (inputNum inp.value)) []

/-- The tolerance test `Math.abs(sum - 100) <= 0.1`. -/
def withinTol (sum : ℚ) : Bool := |sum - 100| ≤ 1 / 10

/-- Observable outcome of `validateProbabilities`: the returned validity,
whether the field's error container was set to visible, and (grid branch)
the row named by the displayed message, which is the first failing row in
map order. -/
structure ValidationView where
  valid : Bool
  errorShown : Bool
  reportedRow : Option String
deriving DecidableEq, Repr

/-- `FormAutomator.validateProbabilities` for one field: an unchecked
random toggle or an empty input list passes immediately; otherwise inputs
are grouped by row when the field is a grid or any input carries a row
index, and every (row) sum must be within 0.1 of 100. -/
def validateProbabilities (checked : Bool) (inputs : List ProbInput)
    (isGrid : Bool) : ValidationView :=
  if ¬ checked then ⟨true, false, none⟩
  else if inputs.isEmpty then ⟨true, false, none⟩
  else
    let shouldGroupByRow := isGrid || inputs.any (fun i => i.rowIdx.isSome)
    if shouldGroupByRow then
      let sums := rowSums inputs
      let allValid := sums.all (fun kv => withinTol kv.2)
      let firstBad := (sums.find? (fun kv => ¬ withinTol kv.2)).map (fun kv => kv.1)
      ⟨allValid, ¬ allValid, if allValid then none else firstBad⟩
    else
      let sum := (inputs.map (fun i => inputNum i.value)).sum
      let valid := withinTol sum
      ⟨valid, ¬ valid, none⟩

/-- One configured question as `ensureValidProbabilities` sees it:
its stored mode and type, whether its random toggle and error container
exist in the page (`hasControls`), the toggle's checked state, and its
probability inputs. -/
structure FieldView where
  mode : String
  type : String
  hasControls : Bool
  checked : Bool
  inputs : List ProbInput
deriving DecidableEq, Repr

/-- `config.type === "grid-radio" || config.type === "grid-checkbox"`. -/
def fieldIsGrid (f : FieldView) : Bool :=
  f.type == "grid-radio" || f.type == "grid-checkbox"

/-- `FormAutomator.ensureValidProbabilities`: fold over the configured
questions, skipping non-random fields and fields whose controls are
missing, conjoining each remaining field's validation verdict. -/
def ensureValidProbabilities (fields : List FieldView) : Bool :=
  fields.foldl
    (fun allValid f =>
      if f.mode ≠ "random" then allValid
      else if ¬ f.hasControls then allValid
      else allValid && (validateProbabilities f.checked f.inputs (fieldIsGrid f)).valid)
    true

/-- Number of fill/submit iterations `FormAutomator.handleSubmit`
performs: zero when a run is already submitting or validation fails, else
the configured submission count (the loop body runs exactly `count`
times). -/
def handleSubmitIterations (isSubmitting : Bool) (fields : List FieldView)
    (count : Nat) : Nat :=
  if isSubmitting then 0
  else if ¬ ensureValidProbabilities fields then 0
  else count

/-- The probability-sum condition the specification states for one field:
per-option sum, or per-row sums when the inputs are grouped by row, within
0.1 of 100 (spec-side predicate, for comparison with the code's
verdict). -/
def specProbSumsOk (f : FieldView) : Bool :=
  if fieldIsGrid f || f.inputs.any (fun i => i.rowIdx.isSome) then
    (rowSums f.inputs).all (fun kv => withinTol kv.2)
  else
    withinTol ((f.inputs.map (fun i => inputNum i.value)).sum)

/-- `FormAutomator.defaultProbabilities`: floor split of 100 across
`optionCount` options, the remainder distributed one by one from the
front.  (The JS guard is `optionCount <= 0`; counts are naturals here.) -/
def defaultProbabilities (optionCount : Nat) : List Nat :=
  if optionCount = 0 then []
  else
    let base := 100 / optionCount
    let remainder := 100 - base * optionCount
    (List.range optionCount).map (fun i => if i < remainder then base + 1 else base)

/-! ## Helper lemmas -/

theorem floor_scaled_bounds (r : ℚ) (n : Int) (h2 : 0 ≤ r) (h3 : r < 1)
    (hn : 0 < n) : 0 ≤ ⌊r * (n : ℚ)⌋ ∧ ⌊r * (n : ℚ)⌋ < n := by
  constructor
  · exact Int.floor_nonneg.mpr (mul_nonneg h2 (by exact_mod_cast hn.le))
  · rw [Int.floor_lt]
    have h4 : r * (n : ℚ) < 1 * (n : ℚ) :=
      mul_lt_mul_of_pos_right h3 (by exact_mod_cast hn)
    simpa using h4

theorem generateRange_bounds (mn mx : Int) (r : ℚ) (h1 : mn ≤ mx)
    (h2 : 0 ≤ r) (h3 : r < 1) :
    mn ≤ generateRange mn mx r ∧ generateRange mn mx r ≤ mx := by
  have hn : 0 < mx - mn + 1 := by omega
  have hcast : (mx : ℚ) - (mn : ℚ) + 1 = ((mx - mn + 1 : Int) : ℚ) := by
    push_cast
    ring
  unfold generateRange
  rw [hcast]
  obtain ⟨h4, h5⟩ := floor_scaled_bounds r (mx - mn + 1) h2 h3 hn
  omega

theorem generatePick_mem_aux {α : Type} (options : List α) (r : ℚ)
    (h2 : 0 ≤ r) (h3 : r < 1) (hne : options ≠ []) :
    ∃ x ∈ options, generatePick options r = some x := by
  have hl : 0 < options.length := List.length_pos.mpr hne
  have hlz : (0 : Int) < (options.length : Int) := by exact_mod_cast hl
  obtain ⟨h4, h5⟩ := floor_scaled_bounds r (options.length : Int) h2 h3 hlz
  have hcast : (((options.length : Int)) : ℚ) = (options.length : ℚ) := by
    push_cast
    rfl
  rw [hcast] at h4 h5
  unfold generatePick
  rw [if_neg (by omega)]
  have hidx : (⌊r * (options.length : ℚ)⌋).toNat < options.length := by omega
  refine ⟨options.get ⟨(⌊r * (options.length : ℚ)⌋).toNat, hidx⟩,
    List.get_mem _ _ _, ?_⟩
  simp only [if_pos h4]
  exact List.get?_eq_get hidx

/-! ## Claim C5 -/

/-- C5: for every pair of integers `min ≤ max` (negative and mixed-sign
included) and every unit-interval draw `r ∈ [0,1)`, `generateRange`
returns an integer in the inclusive interval `[min, max]` (it is the floor
of the scaled draw plus `min` by definition); when `min = max` it returns
exactly that value. -/
theorem generateRange_within_bounds (mn mx : Int) (r : ℚ) (h1 : mn ≤ mx)
    (h2 : 0 ≤ r) (h3 : r < 1) :
    mn ≤ generateRange mn mx r ∧ generateRange mn mx r ≤ mx ∧
      generateRange mn mn r = mn := by
  obtain ⟨ha, hb⟩ := generateRange_bounds mn mx r h1 h2 h3
  obtain ⟨hc, hd⟩ := generateRange_bounds mn mn r le_rfl h2 h3
  exact ⟨ha, hb, le_antisymm hd hc⟩

theorem generateRange_within_bounds_witness :
    (-3 : Int) ≤ generateRange (-3) 4 (9 / 10) ∧
      generateRange (-3) 4 (9 / 10) ≤ 4 ∧
      generateRange (-3) (-3) (9 / 10) = -3 :=
  generateRange_within_bounds (-3) 4 (9 / 10) (by norm_num) (by norm_num)
    (by norm_num)

/-! ## Claim C6 -/

/-- C6: pick generation on the empty list returns null (`none`) rather
than throwing, and on a non-empty list with a draw in `[0,1)` it returns
an element of the list. -/
theorem generatePick_null_or_member {α : Type} (options : List α) (r : ℚ)
    (h2 : 0 ≤ r) (h3 : r < 1) :
    generatePick ([] : List α) r = none ∧
      (options ≠ [] → ∃ x ∈ options, generatePick options r = some x) := by
  refine ⟨by simp [generatePick], fun hne => ?_⟩
  exact generatePick_mem_aux options r h2 h3 hne

theorem generatePick_null_or_member_witness :
    generatePick ([] : List String) (1 / 2) = none ∧
      ∃ x ∈ ["a", "b"], generatePick ["a", "b"] (1 / 2) = some x :=
  ⟨(generatePick_null_or_member ["a", "b"] (1 / 2) (by norm_num)
      (by norm_num)).1,
   (generatePick_null_or_member ["a", "b"] (1 / 2) (by norm_num)
      (by norm_num)).2 (by simp)⟩

theorem weightedWalk_mem (weights : List (String × ℚ)) :
    ∀ (options : List String) (rand : ℚ) (o : String),
      weightedWalk weights options rand = some o → o ∈ options := by
  intro options
  induction options with
  | nil =>
    intro rand o h
    simp [weightedWalk] at h
  | cons hd tl ih =>
    intro rand o h
    simp only [weightedWalk] at h
    by_cases hcond : rand - effectiveWeight weights hd ≤ 0
    · simp only [if_pos hcond, Option.some.injEq] at h
      simp [h]
    · simp only [if_neg hcond] at h
      exact List.mem_cons_of_mem _ (ih _ _ h)

/-! ## Claim C9 (corrected) -/

/-- C9 counterexample: the claim says a configured weight of 0 makes the
option unselectable; but `weights[optionKey] || 1` treats the present
entry `0` as falsy, so option "A" with configured weight 0 is selected at
draw 0 (its effective weight is the default 1, not 0). -/
theorem generateWeighted_zero_weight_selected :
    generateWeighted ["A", "B"] [("A", 0), ("B", 100)] 0 = some "A" := by
  norm_num [generateWeighted, weightedWalk, effectiveWeight, generatePick,
    List.find?]

/-- C9 amended: an option's effective weight equals its entry in the
weights map whenever that entry is present and nonzero; a present entry of
0 (being JS-falsy) and a missing entry both fall back to the default 1, so
a zero-weight option remains selectable; selection walks the option list
subtracting the drawn cumulative weight until it goes non-positive, and
the walk always lands on a member of the list, with the last option as the
numerical-edge fallback. -/
theorem generateWeighted_effective_weights (options : List String)
    (weights : List (String × ℚ)) (r : ℚ) (h2 : 0 ≤ r) (h3 : r < 1) :
    (options ≠ [] → ∃ o ∈ options, generateWeighted options weights r = some o) ∧
    (∀ (key : String) (rest : List String) (rand : ℚ),
      ((weights.find? (fun kv => kv.1 = key)).map (fun kv => kv.2) = some 0 ∨
        (weights.find? (fun kv => kv.1 = key)).map (fun kv => kv.2) = none) →
      rand ≤ 1 → weightedWalk weights (key :: rest) rand = some key) ∧
    (∀ (key : String) (rest : List String) (rand w : ℚ),
      (weights.find? (fun kv => kv.1 = key)).map (fun kv => kv.2) = some w →
      w ≠ 0 → ¬ rand - w ≤ 0 →
      weightedWalk weights (key :: rest) rand =
        weightedWalk weights rest (rand - w)) := by
  refine ⟨fun hne => ?_, fun key rest rand hw hr => ?_, fun key rest rand w hw hwz hr => ?_⟩
  · unfold generateWeighted
    by_cases htot : (weights.map (fun kv => kv.2)).sum = 0
    · rw [if_pos htot]
      exact generatePick_mem_aux options r h2 h3 hne
    · rw [if_neg htot]
      cases hwalk : weightedWalk weights options
          (r * (weights.map (fun kv => kv.2)).sum) with
      | some o =>
        exact ⟨o, weightedWalk_mem weights options _ o hwalk, rfl⟩
      | none =>
        have hl : 0 < options.length := List.length_pos.mpr hne
        have hidx : options.length - 1 < options.length := by omega
        exact ⟨options.get ⟨options.length - 1, hidx⟩, List.get_mem _ _ _,
          List.get?_eq_get hidx⟩
  · rw [weightedWalk]
    have heff : effectiveWeight weights key = 1 := by
      unfold effectiveWeight
      rcases hw with hw | hw <;> simp [hw]
    rw [heff, if_pos (by linarith)]
  · rw [weightedWalk]
    have heff : effectiveWeight weights key = w := by
      unfold effectiveWeight
      rw [hw]
      simp [hwz]
    rw [heff, if_neg hr]

theorem generateWeighted_effective_weights_witness :
    (∃ o ∈ ["A", "B"], generateWeighted ["A", "B"] [("A", 0), ("B", 100)] 0 = some o) ∧
      weightedWalk [("A", 0), ("B", 100)] ["A"] 1 = some "A" :=
  ⟨(generateWeighted_effective_weights ["A", "B"] [("A", 0), ("B", 100)] 0
      le_rfl (by norm_num)).1 (by simp),
   (generateWeighted_effective_weights ["A", "B"] [("A", 0), ("B", 100)] 0
      le_rfl (by norm_num)).2.1 "A" [] 1 (Or.inl (by simp [List.find?]))
      le_rfl⟩

/-! ## Claim C8 (corrected) -/

/-- C8 counterexample: the claim says a range spec with both bounds
present as numbers is invalid whenever `min > max`, including bounds equal
to 0; but the check compares `(config.min || 0)` with `(config.max || 100)`,
so a present `max = 0` is falsy and compares as the default 100:
`{min: 5, max: 0}` is reported valid. -/
theorem validateConfig_max_zero_passes :
    validateConfig (rangeConfig (some 5) (some 0)) =
      { valid := true, errors := [] } := by
  norm_num [validateConfig, rangeConfig, numOrDefault]
  simp

/-- C8 amended: validation accumulates one error per violated rule and
reports valid true iff the error list is empty; a pick spec requires at
least one option; and a range spec with both bounds present as numbers is
reported invalid exactly when `min` exceeds the effective maximum, where a
present `max = 0` (JS-falsy) is replaced by the default 100 — the same
defaults generation itself applies. -/
theorem validateConfig_rules (c : RandomizationConfig)
    (opts : Option (List String)) (l : List String) (mn mx : ℚ)
    (hopts : opts = none ∨ opts = some []) (hl : l ≠ []) :
    (validateConfig c).valid = (validateConfig c).errors.isEmpty ∧
    (validateConfig (pickConfig opts)).valid = false ∧
    (validateConfig (pickConfig (some l))).valid = true ∧
    ((validateConfig (rangeConfig (some mn) (some mx))).valid = true ↔
      mn ≤ (if mx = 0 then 100 else mx)) := by
  refine ⟨rfl, ?_, ?_, ?_⟩
  · rcases hopts with h | h <;>
      simp [h, validateConfig, pickConfig]
  · simp [validateConfig, pickConfig, hl]
  · have hmn : numOrDefault (some mn) 0 = mn := by
      unfold numOrDefault
      by_cases h : mn = 0 <;> simp [h]
    constructor
    · intro hv
      by_contra hgt
      push_neg at hgt
      have : numOrDefault (some mn) 0 > numOrDefault (some mx) 100 := by
        rw [hmn]
        unfold numOrDefault
        by_cases h : mx = 0 <;> simp [h] at hgt ⊢ <;> linarith
      simp [validateConfig, rangeConfig, this] at hv
    · intro hle
      have : ¬ numOrDefault (some mn) 0 > numOrDefault (some mx) 100 := by
        rw [hmn]
        unfold numOrDefault
        by_cases h : mx = 0 <;> simp [h] at hle ⊢ <;> linarith
      simp [validateConfig, rangeConfig, this]

theorem validateConfig_rules_witness :
    ((validateConfig (pickConfig (some []))).valid = false ∧
      (validateConfig (pickConfig (some ["x"]))).valid = true) ∧
      ((validateConfig (rangeConfig (some 10) (some 5))).valid = true ↔
        (10 : ℚ) ≤ (if (5 : ℚ) = 0 then 100 else 5)) :=
  ⟨⟨(validateConfig_rules (pickConfig (some [])) (some []) ["x"] 10 5
        (Or.inr rfl) (by simp)).2.1,
    (validateConfig_rules (pickConfig (some [])) (some []) ["x"] 10 5
        (Or.inr rfl) (by simp)).2.2.1⟩,
   (validateConfig_rules (pickConfig (some [])) (some []) ["x"] 10 5
        (Or.inr rfl) (by simp)).2.2.2⟩

/-! ## Claim C1 -/

/-- C1: a call to `startRun` while a run is already in progress (the
module-level `runningProcess` handle is non-null) throws the concurrency
error and leaves the engine state — and hence the in-flight run's progress
counters, errors list and running flag, which only that run mutates —
unchanged. -/
theorem startRun_rejects_concurrent (s : EngineState) (count : Nat)
    (stopOnError : Bool) (outcome : Nat → Option String)
    (abortDuring : Nat → Bool) (h : s.runningProcess.isSome) :
    startRun s count stopOnError outcome abortDuring =
      (Except.error "A submission run is already in progress", s) := by
  simp [startRun, h]

theorem startRun_rejects_concurrent_witness :
    startRun { runningProcess := some "run-1" } 3 false (fun _ => none)
        (fun _ => false) =
      (Except.error "A submission run is already in progress",
        { runningProcess := some "run-1" }) :=
  startRun_rejects_concurrent { runningProcess := some "run-1" } 3 false
    (fun _ => none) (fun _ => false) rfl

/-! ## Claim C3 (corrected) -/

/-- C3 counterexample: `start` does not always resolve to a progress
value.  With the stop-on-error policy set and a failing iteration, the
caught error is rethrown after being recorded, and the promise rejects
with it; likewise `stop` during the inter-iteration sleep makes the sleep
reject with "Aborted", which escapes the loop (the `finally` only clears
the running flag and the singleton). -/
theorem startRun_can_reject :
    startRun { runningProcess := none } 1 true (fun _ => some "boom")
        (fun _ => false) =
      (Except.error "boom", { runningProcess := none }) ∧
    startRun { runningProcess := none } 2 false (fun _ => none)
        (fun i => i == 0) =
      (Except.error "Aborted", { runningProcess := none }) := by
  constructor <;> rfl

theorem runLoop_no_stop_no_abort (outcome : Nat → Option String)
    (abortDuring : Nat → Bool) (hab : ∀ n, abortDuring n = false) :
    ∀ (remaining i : Nat) (p : SubmissionProgress),
      p.errors.length = p.failedSubmissions →
      ∃ q, runLoop false outcome abortDuring remaining i false p = Except.ok q ∧
        q.isRunning = false ∧
        q.completedSubmissions + q.failedSubmissions =
          p.completedSubmissions + p.failedSubmissions + remaining ∧
        q.errors.length = q.failedSubmissions := by
  intro remaining
  induction remaining with
  | zero =>
    intro i p hp
    exact ⟨{ p with isRunning := false }, rfl, rfl, by simp, hp⟩
  | succ n ih =>
    intro i p hp
    rw [runLoop]
    cases houtcome : outcome i with
    | none =>
      simp only [houtcome, hab i, Bool.false_eq_true, and_false, if_false,
        if_neg]
      obtain ⟨q, hq, h1, h2, h3⟩ := ih (i + 1)
        { p with currentSubmissionIndex := i + 1,
                 completedSubmissions := p.completedSubmissions + 1 }
        (by simpa using hp)
      refine ⟨q, ?_, h1, by simp at h2 ⊢; omega, h3⟩
      simpa using hq
    | some msg =>
      simp only [houtcome, hab i, Bool.false_eq_true, and_false, if_false,
        if_neg]
      obtain ⟨q, hq, h1, h2, h3⟩ := ih (i + 1)
        { p with currentSubmissionIndex := i + 1,
                 failedSubmissions := p.failedSubmissions + 1,
                 errors := p.errors ++ [⟨i + 1, "form", msg⟩] }
        (by simpa using hp)
      refine ⟨q, ?_, h1, by simp at h2 ⊢; omega, h3⟩
      simpa using hq

/-- C3 amended: when the stop-on-error policy is not set and `stop` is not
invoked during the run, `start` resolves to a progress value with
`isRunning = false`, every iteration counted as completed or failed, and
one entry in the progress errors list per failed iteration (per-iteration
errors accumulate instead of being thrown); but when stop-on-error is set
and an iteration fails, or when `stop` interrupts an inter-iteration
sleep, `start` instead propagates that exception to the caller (the
module-level handle is still cleared). -/
theorem startRun_resolves_when_not_stopping (s : EngineState) (count : Nat)
    (outcome : Nat → Option String) (abortDuring : Nat → Bool)
    (hs : s.runningProcess = none) (hab : ∀ n, abortDuring n = false) :
    ∃ q, startRun s count false outcome abortDuring =
        (Except.ok q, { runningProcess := none }) ∧
      q.isRunning = false ∧
      q.completedSubmissions + q.failedSubmissions = count ∧
      q.errors.length = q.failedSubmissions := by
  obtain ⟨q, hq, h1, h2, h3⟩ := runLoop_no_stop_no_abort outcome abortDuring
    hab count 0 (initialProgress count) rfl
  refine ⟨q, ?_, h1, by simpa [initialProgress] using h2, h3⟩
  simp [startRun, hs, hq]

theorem startRun_resolves_when_not_stopping_witness :
    ∃ q, startRun { runningProcess := none } 2 false
        (fun i => if i = 0 then some "e" else none) (fun _ => false) =
        (Except.ok q, { runningProcess := none }) ∧
      q.isRunning = false ∧
      q.completedSubmissions + q.failedSubmissions = 2 ∧
      q.errors.length = q.failedSubmissions :=
  startRun_resolves_when_not_stopping { runningProcess := none } 2
    (fun i => if i = 0 then some "e" else none) (fun _ => false) rfl
    (fun _ => rfl)

/-! ## Claim C10 -/

theorem sum_range_if (c r : Nat) :
    ∀ n, ((List.range n).map (fun i => if i < r then c + 1 else c)).sum =
      n * c + min r n := by
  intro n
  induction n with
  | zero => simp
  | succ m ih =>
    rw [List.range_succ]
    simp only [List.map_append, List.map_cons, List.map_nil, List.sum_append,
      List.sum_cons, List.sum_nil, ih]
    rcases Nat.lt_or_ge m r with h | h
    · rw [if_pos h, Nat.succ_mul]
      have h1 : min r m = m := by omega
      have h2 : min r (m + 1) = m + 1 := by omega
      omega
    · rw [if_neg (by omega), Nat.succ_mul]
      have h1 : min r m = r := by omega
      have h2 : min r (m + 1) = r := by omega
      omega

/-- C10: for every option count `n ≥ 1`, the default probability
assignment returns exactly `n` (non-negative, being naturals) integer
percentages summing to exactly 100 — the first `100 % n` entries are
`⌊100/n⌋ + 1` and the rest `⌊100/n⌋` — and consequently the default
per-option percentages satisfy the 100 ± 0.1 probability-sum check. -/
theorem defaultProbabilities_correct (n : Nat) (h : 1 ≤ n) :
    (defaultProbabilities n).length = n ∧
    (defaultProbabilities n).sum = 100 ∧
    (∀ i, i < n → (defaultProbabilities n).get? i =
      some (if i < 100 % n then 100 / n + 1 else 100 / n)) ∧
    |((defaultProbabilities n).sum : ℚ) - 100| ≤ 1 / 10 := by
  have hn0 : n ≠ 0 := by omega
  have hdm := Nat.div_add_mod 100 n
  have hcomm : n * (100 / n) = 100 / n * n := Nat.mul_comm _ _
  have hrem : 100 - 100 / n * n = 100 % n := by omega
  have hdef : defaultProbabilities n =
      (List.range n).map
        (fun i => if i < 100 % n then 100 / n + 1 else 100 / n) := by
    unfold defaultProbabilities
    rw [if_neg hn0]
    simp only [hrem]
  have hmod : 100 % n < n := Nat.mod_lt _ (by omega)
  have hsum : (defaultProbabilities n).sum = 100 := by
    rw [hdef, sum_range_if]
    have hmin : min (100 % n) n = 100 % n := by omega
    omega
  refine ⟨by rw [hdef]; simp, hsum, fun i hi => ?_, by rw [hsum]; norm_num⟩
  rw [hdef, List.get?_map, List.get?_range hi]
  rfl

theorem defaultProbabilities_correct_witness :
    (defaultProbabilities 7).length = 7 ∧
      (defaultProbabilities 7).sum = 100 ∧
      (defaultProbabilities 7).get? 0 = some 15 := by
  refine ⟨(defaultProbabilities_correct 7 (by norm_num)).1,
    (defaultProbabilities_correct 7 (by norm_num)).2.1, ?_⟩
  have h := (defaultProbabilities_correct 7 (by norm_num)).2.2.1 0
    (by norm_num)
  simpa using h

/-! ## Claim C4 (corrected) -/

theorem mem_cleanTexts_ne_empty (l : List (Option String)) (x : String)
    (hx : x ∈ cleanTexts l) : x ≠ "" := by
  unfold cleanTexts at hx
  rw [List.mem_filterMap] at hx
  obtain ⟨t, _, ht⟩ := hx
  cases t with
  | none => simp at ht
  | some s =>
    simp only [Option.some_bind] at ht
    by_cases h : jsTrim s = ""
    · simp [h] at ht
    · simp only [if_neg h, Option.some.injEq] at ht
      rw [← ht]
      exact h

theorem cleanTexts_cons_none (tl : List (Option String)) :
    cleanTexts (none :: tl) = cleanTexts tl := by
  simp [cleanTexts]

theorem cleanTexts_cons_some (s : String) (tl : List (Option String)) :
    cleanTexts (some s :: tl) =
      if jsTrim s = "" then cleanTexts tl
      else jsTrim s :: cleanTexts tl := by
  by_cases h : jsTrim s = "" <;> simp [cleanTexts, h]

theorem dropdownFold_eq_cleanTexts :
    ∀ (l : List (Option String)) (acc : List String),
      l.foldl
        (fun acc t =>
          match t with
          | some s =>
            let text := jsTrim s
            if text ≠ "" then acc ++ [text] else acc
          | none => acc)
        acc = acc ++ cleanTexts l := by
  intro l
  induction l with
  | nil =>
    intro acc
    simp [cleanTexts]
  | cons hd tl ih =>
    intro acc
    cases hd with
    | none =>
      rw [List.foldl_cons, cleanTexts_cons_none]
      exact ih acc
    | some s =>
      rw [List.foldl_cons, cleanTexts_cons_some]
      by_cases h : jsTrim s = ""
      · simp only [h, if_pos]
        simpa [h] using ih acc
      · simp only [if_neg h]
        show List.foldl
            (fun acc t =>
              match t with
              | some s =>
                let text := jsTrim s
                if text ≠ "" then acc ++ [text] else acc
              | none => acc)
            (if jsTrim s ≠ "" then acc ++ [jsTrim s] else acc) tl =
          acc ++ jsTrim s :: cleanTexts tl
        rw [if_pos h, ih (acc ++ [jsTrim s])]
        simp

theorem dedupFold_spec :
    ∀ (l : List (Option String)) (acc : List String),
      ∃ r, l.foldl
          (fun acc t =>
            match t with
            | some s =>
              let text := jsTrim s
              if text ≠ "" ∧ text ∉ acc then acc ++ [text] else acc
            | none => acc)
          acc = acc ++ r ∧
        r.Nodup ∧ (∀ x ∈ r, x ∉ acc) ∧ r.Sublist (cleanTexts l) ∧
        (∀ x ∈ r, x ≠ "") := by
  intro l
  induction l with
  | nil =>
    intro acc
    exact ⟨[], by simp, List.nodup_nil, by simp, by simp [cleanTexts],
      by simp⟩
  | cons hd tl ih =>
    intro acc
    cases hd with
    | none =>
      obtain ⟨r, h1, h2, h3, h4, h5⟩ := ih acc
      exact ⟨r, by simpa using h1, h2, h3, by rwa [cleanTexts_cons_none], h5⟩
    | some s =>
      by_cases hts : jsTrim s = ""
      · obtain ⟨r, h1, h2, h3, h4, h5⟩ := ih acc
        refine ⟨r, ?_, h2, h3, ?_, h5⟩
        · rw [List.foldl_cons]
          simpa [hts] using h1
        · rw [cleanTexts_cons_some, if_pos hts]
          exact h4
      · by_cases hmem : jsTrim s ∈ acc
        · obtain ⟨r, h1, h2, h3, h4, h5⟩ := ih acc
          refine ⟨r, ?_, h2, h3, ?_, h5⟩
          · rw [List.foldl_cons]
            simpa [hts, hmem] using h1
          · rw [cleanTexts_cons_some, if_neg hts]
            exact h4.cons _
        · obtain ⟨r, h1, h2, h3, h4, h5⟩ := ih (acc ++ [jsTrim s])
          refine ⟨jsTrim s :: r, ?_, ?_, ?_, ?_, ?_⟩
          · rw [List.foldl_cons]
            show List.foldl
                (fun acc t =>
                  match t with
                  | some s =>
                    let text := jsTrim s
                    if text ≠ "" ∧ text ∉ acc then acc ++ [text] else acc
                  | none => acc)
                (if jsTrim s ≠ "" ∧ jsTrim s ∉ acc then acc ++ [jsTrim s]
                  else acc) tl =
              acc ++ jsTrim s :: r
            rw [if_pos ⟨hts, hmem⟩, h1]
            simp
          · rw [List.nodup_cons]
            refine ⟨fun hin => ?_, h2⟩
            have := h3 _ hin
            simp at this
          · intro x hx
            rcases List.mem_cons.mp hx with rfl | hx
            · exact hmem
            · have := h3 x hx
              simp at this
              exact this.1
          · rw [cleanTexts_cons_some, if_neg hts]
            exact h4.cons₂ _
          · intro x hx
            rcases List.mem_cons.mp hx with rfl | hx
            · exact hts
            · exact h5 x hx

/-- C4 counterexample: the claim says the option list for every
choice/dropdown type contains no two entries with the same exact trimmed
text; but the dropdown branch of `extractOptions` pushes every non-empty
text without the `!options.includes(text)` check, so a dropdown node with
two identically-labelled options yields a duplicate entry. -/
theorem extractOptions_dropdown_keeps_duplicates :
    extractOptions
        { optionRoleTexts := [some "A", some "A"], labelLikeTexts := [] }
        QuestionType.dropdown = ["A", "A"] ∧
      ¬ (extractOptions
          { optionRoleTexts := [some "A", some "A"], labelLikeTexts := [] }
          QuestionType.dropdown).Nodup := by
  have h : extractOptions
      { optionRoleTexts := [some "A", some "A"], labelLikeTexts := [] }
      QuestionType.dropdown = ["A", "A"] := by decide
  rw [h]
  exact ⟨rfl, by decide⟩

/-- C4 amended: option extraction never produces an empty string and
preserves first-seen document order for every choice/dropdown type; the
radio and checkbox branches additionally keep only the first occurrence of
each exact trimmed text (no duplicates), but the dropdown branch keeps
every non-empty occurrence, duplicates included. -/
theorem extractOptions_order_dedup (node : NodeView) :
    (∀ ty, ∀ s ∈ extractOptions node ty, s ≠ "") ∧
    extractOptions node QuestionType.dropdown =
      cleanTexts node.optionRoleTexts ∧
    (extractOptions node QuestionType.radio).Nodup ∧
    (extractOptions node QuestionType.radio).Sublist
      (cleanTexts node.labelLikeTexts) ∧
    (extractOptions node QuestionType.checkbox).Nodup ∧
    (extractOptions node QuestionType.checkbox).Sublist
      (cleanTexts node.labelLikeTexts) := by
  have hdrop : extractOptions node QuestionType.dropdown =
      cleanTexts node.optionRoleTexts := by
    unfold extractOptions
    simpa using dropdownFold_eq_cleanTexts node.optionRoleTexts []
  obtain ⟨r, h1, h2, h3, h4, h5⟩ := dedupFold_spec node.labelLikeTexts []
  have hradio : extractOptions node QuestionType.radio = r := by
    unfold extractOptions
    simpa using h1
  have hcheck : extractOptions node QuestionType.checkbox = r := by
    unfold extractOptions
    simpa using h1
  refine ⟨fun ty s hs => ?_, hdrop, by rw [hradio]; exact h2,
    by rw [hradio]; exact h4, by rw [hcheck]; exact h2,
    by rw [hcheck]; exact h4⟩
  cases ty with
  | dropdown =>
    rw [hdrop] at hs
    exact mem_cleanTexts_ne_empty _ _ hs
  | radio =>
    rw [hradio] at hs
    exact h5 s hs
  | checkbox =>
    rw [hcheck] at hs
    exact h5 s hs
  | short_answer => simp [extractOptions] at hs
  | paragraph => simp [extractOptions] at hs
  | linear_scale => simp [extractOptions] at hs
  | date => simp [extractOptions] at hs
  | time => simp [extractOptions] at hs
  | file_upload => simp [extractOptions] at hs
  | grid_radio => simp [extractOptions] at hs
  | grid_checkbox => simp [extractOptions] at hs

theorem extractOptions_order_dedup_witness :
    extractOptions
        { optionRoleTexts := [some " x ", none], labelLikeTexts := [] }
        QuestionType.dropdown = cleanTexts [some " x ", none] ∧
      (extractOptions
          { optionRoleTexts := [], labelLikeTexts := [some "B", some "B"] }
          QuestionType.radio).Nodup :=
  ⟨(extractOptions_order_dedup
      { optionRoleTexts := [some " x ", none], labelLikeTexts := [] }).2.1,
   (extractOptions_order_dedup
      { optionRoleTexts := [], labelLikeTexts := [some "B", some "B"] }).2.2.1⟩

/-! ## Claim C2 -/

theorem validateProbabilities_valid_eq (f : FieldView)
    (hne : f.inputs ≠ []) :
    (validateProbabilities true f.inputs (fieldIsGrid f)).valid =
      specProbSumsOk f := by
  unfold validateProbabilities specProbSumsOk
  rw [if_neg (by simp), if_neg (by simp [hne])]
  cases hg : (fieldIsGrid f || f.inputs.any fun i => i.rowIdx.isSome) <;>
    simp [hg]

theorem validateProbabilities_errorShown_eq (f : FieldView)
    (hne : f.inputs ≠ []) :
    (validateProbabilities true f.inputs (fieldIsGrid f)).errorShown =
      ! specProbSumsOk f := by
  unfold validateProbabilities specProbSumsOk
  rw [if_neg (by simp), if_neg (by simp [hne])]
  cases hg : (fieldIsGrid f || f.inputs.any fun i => i.rowIdx.isSome)
  · simp only [hg, Bool.false_eq_true, if_false]
    cases hv : withinTol ((f.inputs.map fun i => inputNum i.value).sum) <;>
      simp [hv]
  · simp only [hg, if_true]
    cases hall : ((rowSums f.inputs).all fun kv => withinTol kv.2) <;>
      simp [hall]

theorem ensureValid_eq_all (fields : List FieldView) :
    ensureValidProbabilities fields =
      fields.all (fun f =>
        if f.mode = "random" ∧ f.hasControls then
          (validateProbabilities f.checked f.inputs (fieldIsGrid f)).valid
        else true) := by
  unfold ensureValidProbabilities
  suffices h : ∀ (l : List FieldView) (acc : Bool),
      l.foldl
        (fun allValid f =>
          if f.mode ≠ "random" then allValid
          else if ¬ f.hasControls then allValid
          else allValid &&
            (validateProbabilities f.checked f.inputs (fieldIsGrid f)).valid)
        acc =
      (acc && l.all (fun f =>
        if f.mode = "random" ∧ f.hasControls then
          (validateProbabilities f.checked f.inputs (fieldIsGrid f)).valid
        else true)) by
    rw [h fields true, Bool.true_and]
  intro l
  induction l with
  | nil =>
    intro acc
    simp
  | cons hd tl ih =>
    intro acc
    rw [List.foldl_cons, List.all_cons, ih]
    have hstep : (if hd.mode ≠ "random" then acc
        else if ¬ hd.hasControls then acc
        else acc &&
          (validateProbabilities hd.checked hd.inputs (fieldIsGrid hd)).valid) =
        (acc && (if hd.mode = "random" ∧ hd.hasControls then
          (validateProbabilities hd.checked hd.inputs (fieldIsGrid hd)).valid
        else true)) := by
      by_cases h1 : hd.mode = "random"
      · by_cases h2 : hd.hasControls
        · simp [h1, h2]
        · simp [h1, h2]
      · simp [h1]
    rw [hstep, Bool.and_assoc]

/-- C2: for every field configured in random mode with its probability
controls present and checked and at least one probability input, a
probability sum outside 100 ± 0.1 (per option, or per row for grouped grid
inputs; non-numeric entries count as 0) makes the submit handler perform
zero fill/submit iterations, and every such violating field's error
container is displayed; conversely, when every such field's sums are
within tolerance, validation passes and the handler performs all `count`
iterations. -/
theorem probability_sums_gate_run (fields : List FieldView) (count : Nat) :
    ((∃ f ∈ fields, f.mode = "random" ∧ f.hasControls = true ∧
        f.checked = true ∧ f.inputs ≠ [] ∧ specProbSumsOk f = false) →
      handleSubmitIterations false fields count = 0 ∧
      ∀ f ∈ fields, f.checked = true → f.inputs ≠ [] →
        specProbSumsOk f = false →
        (validateProbabilities f.checked f.inputs (fieldIsGrid f)).errorShown =
          true) ∧
    ((∀ f ∈ fields, f.mode = "random" → f.hasControls = true →
        f.checked = true → f.inputs ≠ [] → specProbSumsOk f = true) →
      ensureValidProbabilities fields = true ∧
      handleSubmitIterations false fields count = count) := by
  constructor
  · rintro ⟨f, hf, hmode, hctl, hchk, hne, hbad⟩
    have hvalid :
        (validateProbabilities f.checked f.inputs (fieldIsGrid f)).valid =
          false := by
      rw [hchk, validateProbabilities_valid_eq f hne, hbad]
    have hens : ensureValidProbabilities fields = false := by
      rw [ensureValid_eq_all]
      rw [List.all_eq_false]
      exact ⟨f, hf, by simp [hmode, hctl, hvalid]⟩
    refine ⟨by simp [handleSubmitIterations, hens], ?_⟩
    intro g hg hchk' hne' hbad'
    rw [hchk', validateProbabilities_errorShown_eq g hne', hbad']
    rfl
  · intro hall
    have hens : ensureValidProbabilities fields = true := by
      rw [ensureValid_eq_all, List.all_eq_true]
      intro f hf
      by_cases h1 : f.mode = "random" ∧ f.hasControls = true
      · rw [if_pos (by simpa using h1)]
        by_cases hchk : f.checked = true
        · by_cases hne : f.inputs = []
          · rw [hchk, hne]
            simp [validateProbabilities]
          · rw [hchk, validateProbabilities_valid_eq f hne]
            exact hall f hf h1.1 h1.2 hchk hne
        · have hfalse : f.checked = false := by
            revert hchk
            cases f.checked <;> simp
          rw [hfalse]
          simp [validateProbabilities]
      · rw [if_neg (by simpa using h1)]
    exact ⟨hens, by simp [handleSubmitIterations, hens]⟩

theorem probability_sums_gate_run_witness :
    handleSubmitIterations false
        [{ mode := "random", type := "choice", hasControls := true,
           checked := true,
           inputs := [{ rowIdx := none, value := some 60 },
                      { rowIdx := none, value := some 39 }] }] 5 = 0 ∧
      handleSubmitIterations false
        [{ mode := "random", type := "choice", hasControls := true,
           checked := true,
           inputs := [{ rowIdx := none, value := some 60 },
                      { rowIdx := none, value := some 40 }] }] 5 = 5 := by
  constructor
  · refine ((probability_sums_gate_run
        [{ mode := "random", type := "choice", hasControls := true,
           checked := true,
           inputs := [{ rowIdx := none, value := some 60 },
                      { rowIdx := none, value := some 39 }] }] 5).1
      ⟨{ mode := "random", type := "choice", hasControls := true,
         checked := true,
         inputs := [{ rowIdx := none, value := some 60 },
                    { rowIdx := none, value := some 39 }] },
        by simp, rfl, rfl, rfl, by simp, ?_⟩).1
    norm_num [specProbSumsOk, fieldIsGrid, withinTol, inputNum]
    rintro (h | h) <;> simp at h
  · refine ((probability_sums_gate_run
        [{ mode := "random", type := "choice", hasControls := true,
           checked := true,
           inputs := [{ rowIdx := none, value := some 60 },
                      { rowIdx := none, value := some 40 }] }] 5).2 ?_).2
    intro f hf _ _ _ _
    simp only [List.mem_singleton] at hf
    subst hf
    norm_num [specProbSumsOk, fieldIsGrid, withinTol, inputNum]
    exact Or.inl ⟨by simp, by simp⟩

/-! ## Claim C7 -/

theorem findIdx?_first_sep (L : List Char) (c : Char) (r : List Char)
    (p : Char → Bool) (hL : ∀ x ∈ L, p x = false) (hc : p c = true) :
    (L ++ c :: r).findIdx? p = some L.length := by
  rw [List.findIdx?_append, List.findIdx?_eq_none_iff.mpr hL]
  simp [List.findIdx?_cons, hc]

theorem splitOn_comma_pair (minS maxS : List Char) (h1 : ',' ∉ minS)
    (h2 : ',' ∉ maxS) :
    (minS ++ ',' :: maxS).splitOn ',' = [minS, maxS] := by
  show (minS ++ ',' :: maxS).splitOnP (fun x => x == ',') = [minS, maxS]
  rw [List.splitOnP_first _ _ (fun x hx => by simp; exact ne_of_mem_of_not_mem hx h1) ',' (by simp)]
  rw [List.splitOnP_eq_single _ _ (fun x hx => by simp; exact ne_of_mem_of_not_mem hx h2)]

theorem splitOn_no_comma (minS : List Char) (h1 : ',' ∉ minS) :
    minS.splitOn ',' = [minS] := by
  show minS.splitOnP (fun x => x == ',') = [minS]
  exact List.splitOnP_eq_single _ _
    (fun x hx => by simp; exact ne_of_mem_of_not_mem hx h1)

theorem quantRange_pair (minS maxS : List Char) (mn mx : Int) (r : ℚ)
    (hmin : jsParseInt minS = some mn) (hmax : jsParseInt maxS = some mx)
    (h1 : ',' ∉ minS) (h2 : ',' ∉ maxS) :
    quantRange (minS ++ ',' :: maxS) r = generateRange mn mx r := by
  have hne : maxS ≠ [] := by
    intro h
    subst h
    simp [jsParseInt, parseDigits] at hmax
  unfold quantRange
  rw [splitOn_comma_pair minS maxS h1 h2]
  have hie : maxS.isEmpty = false := by
    cases maxS with
    | nil => exact absurd rfl hne
    | cons a l => rfl
  simp only [List.headD, List.get?, hie, Bool.false_eq_true, if_false]
  rw [hmin, hmax]

theorem quantRange_single (minS : List Char) (mn : Int) (r : ℚ)
    (hmin : jsParseInt minS = some mn) (h1 : ',' ∉ minS) :
    quantRange minS r = generateRange mn mn r := by
  unfold quantRange
  rw [splitOn_no_comma minS h1]
  simp only [List.headD, List.get?]
  rw [hmin]

theorem generateRange_same (mn : Int) (r : ℚ) (h2 : 0 ≤ r) (h3 : r < 1) :
    generateRange mn mn r = mn := by
  obtain ⟨ha, hb⟩ := generateRange_bounds mn mn r le_rfl h2 h3
  omega

theorem take_sep (L : List Char) (c : Char) (r : List Char) :
    List.take L.length (L ++ c :: r) = L :=
  List.take_left' rfl

theorem drop_sep (L : List Char) (c : Char) (r : List Char) :
    List.drop (L.length + 1) (L ++ c :: r) = r := by
  rw [show L ++ c :: r = (L ++ [c]) ++ r by simp]
  exact List.drop_left' (by simp)

/-- C7: in pattern synthesis the quantifier `*` emits between 0 and 2
repetitions of the fixed placeholder filler character `a`, `+` emits 1 or
2 repetitions of that filler, and `{n}` / `{n,m}` (with parseable bounds
`n ≤ m`) emits a count drawn from `[n, m]` of that filler; in every case
the quantifier's emission is `List.replicate c 'a'` for all continuations
and oracles, so a quantifier never repeats the token that precedes it in
the pattern. -/
theorem genFromPat_quantifier_fillers (rand : Nat → ℚ)
    (hr : ∀ n, 0 ≤ rand n ∧ rand n < 1) :
    (∀ (rest : List Char) (k : Nat), ∃ c ≤ 2,
      genFromPat rand ('*' :: rest) k =
        List.replicate c 'a' ++ genFromPat rand rest (k + 1)) ∧
    (∀ (rest : List Char) (k : Nat), ∃ c, 1 ≤ c ∧ c ≤ 2 ∧
      genFromPat rand ('+' :: rest) k =
        List.replicate c 'a' ++ genFromPat rand rest (k + 1)) ∧
    (∀ (minS rest : List Char) (k : Nat) (mn : Int),
      jsParseInt minS = some mn → ',' ∉ minS → '}' ∉ minS →
      genFromPat rand ('{' :: (minS ++ '}' :: rest)) k =
        List.replicate mn.toNat 'a' ++ genFromPat rand rest (k + 1)) ∧
    (∀ (minS maxS rest : List Char) (k : Nat) (mn mx : Int),
      jsParseInt minS = some mn → jsParseInt maxS = some mx →
      ',' ∉ minS → ',' ∉ maxS → '}' ∉ minS → '}' ∉ maxS → mn ≤ mx →
      ∃ c : Int, mn ≤ c ∧ c ≤ mx ∧
        genFromPat rand ('{' :: (minS ++ ',' :: (maxS ++ '}' :: rest))) k =
          List.replicate c.toNat 'a' ++ genFromPat rand rest (k + 1)) := by
  obtain hr2 := hr
  refine ⟨fun rest k => ?_, fun rest k => ?_,
    fun minS rest k mn hmin hc hbr => ?_,
    fun minS maxS rest k mn mx hmin hmax hc1 hc2 hbr1 hbr2 hle => ?_⟩
  · refine ⟨(⌊rand k * 3⌋).toNat, ?_, by rw [genFromPat]⟩
    obtain ⟨ha, hb⟩ := hr k
    obtain ⟨h0, h3⟩ := floor_scaled_bounds (rand k) 3 ha hb (by norm_num)
    have hcast : (((3 : Int)) : ℚ) = (3 : ℚ) := by norm_num
    rw [hcast] at h0 h3
    omega
  · refine ⟨1 + (⌊rand k * 2⌋).toNat, by omega, ?_, by rw [genFromPat]⟩
    obtain ⟨ha, hb⟩ := hr k
    obtain ⟨h0, h3⟩ := floor_scaled_bounds (rand k) 2 ha hb (by norm_num)
    have hcast : (((2 : Int)) : ℚ) = (2 : ℚ) := by norm_num
    rw [hcast] at h0 h3
    omega
  · rw [genFromPat]
    rw [findIdx?_first_sep minS '}' rest _
      (fun x hx => by simp; exact ne_of_mem_of_not_mem hx hbr) (by simp)]
    show List.replicate
        (quantRange (List.take minS.length (minS ++ '}' :: rest))
          (rand k)).toNat 'a' ++
      genFromPat rand (List.drop (minS.length + 1) (minS ++ '}' :: rest))
        (k + 1) =
      List.replicate mn.toNat 'a' ++ genFromPat rand rest (k + 1)
    rw [take_sep minS '}' rest, drop_sep minS '}' rest]
    rw [quantRange_single minS mn (rand k) hmin hc,
      generateRange_same mn (rand k) (hr k).1 (hr k).2]
  · have hL : '}' ∉ minS ++ ',' :: maxS := by
      intro hmem
      rcases List.mem_append.mp hmem with h | h
      · exact hbr1 h
      · rcases List.mem_cons.mp h with h | h
        · exact absurd h.symm (by decide)
        · exact hbr2 h
    refine ⟨generateRange mn mx (rand k), (generateRange_bounds mn mx
      (rand k) hle (hr k).1 (hr k).2).1, (generateRange_bounds mn mx
      (rand k) hle (hr k).1 (hr k).2).2, ?_⟩
    rw [genFromPat]
    rw [show minS ++ ',' :: (maxS ++ '}' :: rest) =
      (minS ++ ',' :: maxS) ++ '}' :: rest by simp]
    rw [findIdx?_first_sep (minS ++ ',' :: maxS) '}' rest _
      (fun x hx => by simp; exact ne_of_mem_of_not_mem hx hL) (by simp)]
    show List.replicate
        (quantRange (List.take (minS ++ ',' :: maxS).length
          ((minS ++ ',' :: maxS) ++ '}' :: rest)) (rand k)).toNat 'a' ++
      genFromPat rand (List.drop ((minS ++ ',' :: maxS).length + 1)
        ((minS ++ ',' :: maxS) ++ '}' :: rest)) (k + 1) =
      List.replicate (generateRange mn mx (rand k)).toNat 'a' ++
        genFromPat rand rest (k + 1)
    rw [take_sep (minS ++ ',' :: maxS) '}' rest,
      drop_sep (minS ++ ',' :: maxS) '}' rest]
    rw [quantRange_pair minS maxS mn mx (rand k) hmin hmax hc1 hc2]

theorem genFromPat_quantifier_fillers_witness :
    (∃ c ≤ 2, genFromPat (fun _ => 1 / 2) ['*'] 0 =
      List.replicate c 'a' ++ genFromPat (fun _ => 1 / 2) [] 1) ∧
    genFromPat (fun _ => 1 / 2) ('{' :: (['2'] ++ '}' :: [])) 0 =
      List.replicate (2 : Int).toNat 'a' ++
        genFromPat (fun _ => 1 / 2) [] 1 := by
  have h := genFromPat_quantifier_fillers (fun _ => 1 / 2)
    (fun n => by norm_num)
  exact ⟨h.1 [] 0,
    h.2.2.1 ['2'] [] 0 2 (by decide) (by decide) (by decide)⟩

end GFormFiller
